import Mathlib

/-
Verification development for the port-activity monitor (monitor.py).

The Python source is embedded shallowly:
  * netstat text lines are modelled as their whitespace-split fields plus a
    Boolean recording whether the raw line contains the substring
    "ESTABLISHED" (the only two attributes of a line the code inspects);
  * psutil connection records are modelled as a structure with the fields the
    code reads;
  * the outcome of external commands and file reads is passed in as an
    Option-valued oracle argument (`none` models the raised exception);
  * Python ints/floats used for times and durations are modelled as `Rat`
    (durations are float seconds; no claim here depends on floating-point
    rounding);
  * Python dicts (insertion ordered, unique keys) are modelled as association
    lists in insertion order.
-/

namespace PortMonitor

/-- `listPre p s` models Python `s.startswith(p)` at the character level. -/
def listPre : List Char → List Char → Bool
  | [], _ => true
  | _ :: _, [] => false
  | a :: asx, b :: bs => decide (a = b) && listPre asx bs

/-- Python `s.startswith(p)`. -/
def strStartsWith (s p : String) : Bool :=
  listPre p.data s.data

/-- Value of a decimal digit character, if it is one. -/
def digitVal (c : Char) : Option Nat :=
  if '0' ≤ c ∧ c ≤ '9' then some (c.toNat - '0'.toNat) else none

/-- Left-to-right accumulation of a digit string. -/
def digitsAux (acc : Nat) : List Char → Option Nat
  | [] => some acc
  | c :: rest =>
    match digitVal c with
    | some d => digitsAux (acc * 10 + d) rest
    | none => none

/-- Python `int(s)` on the token shapes netstat/config produce: an optional
sign followed by decimal digits; anything else raises, modelled as `none`. -/
def pyInt (s : String) : Option Int :=
  match s.data with
  | [] => none
  | '-' :: rest =>
    if rest = [] then none else (digitsAux 0 rest).map (fun n => -(n : Int))
  | '+' :: rest =>
    if rest = [] then none else (digitsAux 0 rest).map (fun n => (n : Int))
  | cs => (digitsAux 0 cs).map (fun n => (n : Int))

/-- Python `s.split(":")[-1]`: the suffix after the last colon (the whole
string when no colon is present). -/
def lastField (s : String) : String :=
  ⟨(s.data.reverse.takeWhile (fun c => !decide (c = ':'))).reverse⟩

/-- Python `s.split(":")[0]`: the prefix before the first colon. -/
def firstField (s : String) : String :=
  ⟨s.data.takeWhile (fun c => !decide (c = ':'))⟩

/-- A JSON config scalar that may be an int or a string (`target_ports`
entries can be numbers, numeric strings, or the wildcard string "*"). -/
inductive PyVal where
  | pint (n : Int)
  | pstr (s : String)
deriving DecidableEq

/-- Python `int(v)` on a config scalar: identity on ints, parse on strings. -/
def pyValToInt : PyVal → Option Int
  | .pint n => some n
  | .pstr s => pyInt s

/-- Python `v == "*"` (an int never equals a string). -/
def pyValIsStar : PyVal → Bool
  | .pint _ => false
  | .pstr s => decide (s = "*")

/-- Python `v == p` for an int `p` (an int never equals a string). -/
def pyValEqInt : PyVal → Int → Bool
  | .pint n, m => decide (n = m)
  | .pstr _, _ => false

/-- Python truthiness of the optional `socks_port` config value
(`None` and `0` are falsy). -/
def pyTruthy : Option Int → Bool
  | none => false
  | some n => decide (n ≠ 0)

/-- One netstat output line: its whitespace-split fields (`line.split()`)
together with whether the raw line contains the substring "ESTABLISHED"
("ESTABLISHED" has no whitespace, so that containment is an attribute of the
line that splitting does not recover; it is carried alongside). -/
structure NetLine where
  parts : List String
  established : Bool
deriving DecidableEq

/-- `parts[3]`, read only under the length-≥-5 guard. -/
def localAddr (l : NetLine) : String := l.parts.getD 3 ""

/-- `parts[4]`, read only under the length-≥-5 guard. -/
def remoteAddr (l : NetLine) : String := l.parts.getD 4 ""

/-- Source guard `if len(parts) < 5 or 'ESTABLISHED' not in line: continue`. -/
def lineEligible (l : NetLine) : Bool :=
  decide (5 ≤ l.parts.length) && l.established

/-- First pass of `check_docker_connections`: collect remote addresses of
lines whose local port parses to the socks port, deduplicated in order
(`if remote_addr not in active_clients: active_clients.append(...)`).
The inner bare `except: pass` makes a failed `int(...)` a no-op. -/
def clientStep (sp : Int) (acc : List String) (l : NetLine) : List String :=
  if lineEligible l = true then
    match pyInt (lastField (localAddr l)) with
    | some lp =>
      if lp = sp then
        (if remoteAddr l ∈ acc then acc else acc ++ [remoteAddr l])
      else acc
    | none => acc
  else acc

/-- The whole first pass, guarded by `if socks_port:`. -/
def collectClients (socksPort : Option Int) (lines : List NetLine) : List String :=
  if pyTruthy socksPort = true then lines.foldl (clientStep (socksPort.getD 0)) []
  else []

/-- Second-pass client test: `remote_addr in active_clients` or (when
`socks_port` is truthy) the local port parses to the socks port. -/
def isClientLine (socksPort : Option Int) (clients : List String) (l : NetLine) : Bool :=
  decide (remoteAddr l ∈ clients) ||
  (pyTruthy socksPort &&
    match pyInt (lastField (localAddr l)) with
    | some lp => decide (lp = socksPort.getD 0)
    | none => false)

/-- Wildcard test of the container backend: the raw remote token must not
start with "127.0.0.1" nor with "::1" (note: `startswith` on the full
`ip:port` token, not equality on the ip). -/
def wildcardExcl (remote : String) : Bool :=
  !(strStartsWith remote "127.0.0.1") && !(strStartsWith remote "::1")

/-- Explicit-port loop: `for port in target_ports: if port == "*": continue;
if int(port) == current_port: ...`. `int(port)` on a non-numeric entry raises
out of the loop (no local handler), modelled as `none`. -/
def explicitMatchLoop (targets : List PyVal) (cp : Int) : Option Bool :=
  match targets with
  | [] => some false
  | p :: rest =>
    if pyValIsStar p = true then explicitMatchLoop rest cp
    else
      match pyValToInt p with
      | none => none
      | some n => if n = cp then some true else explicitMatchLoop rest cp

/-- The `is_match` computation of the container backend. -/
def matchResult (targets : List PyVal) (remote : String) (cp : Int) : Option Bool :=
  if targets.any pyValIsStar = true then some (wildcardExcl remote)
  else explicitMatchLoop targets cp

/-- One reported target connection (`conn_details` dict / host dict). -/
structure ConnDetails where
  remote : String
  localA : String
  port : Int
  process : String
deriving DecidableEq

/-- `parts[6]` when the line has at least 7 fields, else "Unknown". -/
def procOf (l : NetLine) : String :=
  if 7 ≤ l.parts.length then l.parts.getD 6 "" else "Unknown"

/-- The `conn_details` record built for a matching line. -/
def mkDetails (l : NetLine) (cp : Int) : ConnDetails :=
  ⟨remoteAddr l, localAddr l, cp, procOf l⟩

/-- Processing of one line in the second pass of `check_docker_connections`;
`none` models an exception escaping to the enclosing handler. -/
def dockerStep (socksPort : Option Int) (targets : List PyVal) (clients : List String)
    (acc : List ConnDetails) (l : NetLine) : Option (List ConnDetails) :=
  if lineEligible l = false then some acc
  else if isClientLine socksPort clients l = true then some acc
  else
    match pyInt (lastField (remoteAddr l)) with
    | none => some acc
    | some cp =>
      match matchResult targets (remoteAddr l) cp with
      | none => none
      | some false => some acc
      | some true =>
        if acc.any (fun e => decide (e.remote = remoteAddr l) && decide (e.port = cp)) = true
        then some acc
        else some (acc ++ [mkDetails l cp])

/-- The second pass over all lines, aborting on an escaped exception. -/
def dockerFold (socksPort : Option Int) (targets : List PyVal) (clients : List String) :
    List NetLine → List ConnDetails → Option (List ConnDetails)
  | [], acc => some acc
  | l :: ls, acc =>
    match dockerStep socksPort targets clients acc l with
    | none => none
    | some acc2 => dockerFold socksPort targets clients ls acc2

/-- `get_docker_netstat_output`: the split lines of the command output, or
`[]` when the command invocation raises (`except Exception: return []`).
The oracle argument `none` models the raised exception. -/
def get_docker_netstat_output (cmdResult : Option (List NetLine)) : List NetLine :=
  cmdResult.getD []

/-- `check_docker_connections`: first pass collects clients, second pass
collects deduplicated target matches; an exception escaping the body returns
the sentinel `(None, None)`, modelled as `(none, none)`. -/
def check_docker_connections (cmdResult : Option (List NetLine)) (targets : List PyVal)
    (socksPort : Option Int) : Option (List ConnDetails) × Option (List String) :=
  let lines := get_docker_netstat_output cmdResult
  let clients := collectClients socksPort lines
  match dockerFold socksPort targets clients lines [] with
  | none => (none, none)
  | some conns => (some conns, some clients)

/-- `main`'s guard on the container-backend result:
`if result[0] is None: time.sleep(1); continue`. -/
def mainSkipsPoll (result : Option (List ConnDetails) × Option (List String)) : Bool :=
  result.1.isNone

/-- One psutil connection record, with the fields `check_connections` reads.
`established` models `conn.status == psutil.CONN_ESTABLISHED`; `raddr` is
`None` for a socket without a remote peer; `pname` is the result of the
`psutil.Process(conn.pid).name()` lookup, `none` modelling the exception
branch. -/
structure PsConn where
  established : Bool
  lip : String
  lport : Int
  raddr : Option (String × Int)
  pid : Int
  pname : Option String
deriving DecidableEq

/-- `f"{conn.pid}/{proc.name()}"`, or "Unknown" when the lookup raised. -/
def hostProcessName (c : PsConn) : String :=
  match c.pname with
  | some nm => toString c.pid ++ "/" ++ nm
  | none => "Unknown"

/-- Processing of one psutil connection in `check_connections`: the client
list gains `f"{r_ip}:{r_port}"` when the local port equals the socks port and
`r_ip` is truthy; independently (no client exclusion and no deduplication in
this backend) a truthy remote port is tested against the targets and a
matching connection is appended to the found list. -/
def hostStep (socksPort : Int) (targets : List PyVal)
    (acc : List ConnDetails × List String) (c : PsConn) :
    List ConnDetails × List String :=
  if c.established = true then
    let clients :=
      match c.raddr with
      | some (rip, rp) =>
        if c.lport = socksPort ∧ rip ≠ "" then
          (if (rip ++ ":" ++ toString rp) ∈ acc.2 then acc.2
           else acc.2 ++ [rip ++ ":" ++ toString rp])
        else acc.2
      | none => acc.2
    let found :=
      match c.raddr with
      | some (rip, rp) =>
        if rp ≠ 0 then
          (if (if targets.any pyValIsStar = true
               then decide (rip ≠ "127.0.0.1" ∧ rip ≠ "::1")
               else targets.any (fun t => pyValEqInt t rp)) = true
           then acc.1 ++ [⟨rip ++ ":" ++ toString rp,
                           c.lip ++ ":" ++ toString c.lport, rp, hostProcessName c⟩]
           else acc.1)
        else acc.1
      | none => acc.1
    (found, clients)
  else acc

/-- `check_connections` (host backend): fold the per-connection step over the
psutil table. `socks_port` is modelled as the integer `int(socks_port)`
evaluates to (config validation guarantees it is set). -/
def check_connections (socksPort : Int) (targets : List PyVal) (conns : List PsConn) :
    List ConnDetails × List String :=
  conns.foldl (hostStep socksPort targets) ([], [])

/-- One persisted usage record (`self.stats[ip]`). Timestamps are modelled as
rational instants. -/
structure UsageRecord where
  total_duration : Rat
  first_seen : Rat
  last_seen : Option Rat
deriving DecidableEq

/-- The stats store: a dict from ip to record, in insertion order. -/
abbrev Stats := List (String × UsageRecord)

/-- The dict write `self.stats[ip]["total_duration"] += d;
self.stats[ip]["last_seen"] = now`, applied entry-wise (it touches exactly
the unique entry whose key is `ip`). -/
def applyUpd (ip : String) (durationSeconds now : Rat) (e : String × UsageRecord) :
    String × UsageRecord :=
  if e.1 = ip
  then (e.1, ⟨e.2.total_duration + durationSeconds, e.2.first_seen, some now⟩)
  else e

/-- `StatsManager.update_client`: create a zero record for an unseen ip
(`first_seen = now`, `last_seen = None`), then add the delta to
`total_duration` and set `last_seen = now`. The dict write is modelled as a
key-preserving map (dict keys are unique). -/
def update_client (stats : Stats) (ip : String) (durationSeconds : Rat) (now : Rat) :
    Stats :=
  let stats1 :=
    if stats.any (fun e => decide (e.1 = ip)) = true then stats
    else stats ++ [(ip, ⟨0, now, none⟩)]
  stats1.map (applyUpd ip durationSeconds now)

/-- The stored `total_duration` for an ip, zero when unseen. -/
def totalOf (stats : Stats) (ip : String) : Rat :=
  match stats.find? (fun e => decide (e.1 = ip)) with
  | some e => e.2.total_duration
  | none => 0

/-- The sort key of `get_leaderboard`: `item[1].get("total_duration", 0)`
(records written by `update_client` always carry the key). -/
def leaderKey (e : String × UsageRecord) : Rat := e.2.total_duration

/-- Stable descending insertion: place `x` before the first element whose key
is not strictly greater. -/
def insertDesc (x : String × UsageRecord) :
    List (String × UsageRecord) → List (String × UsageRecord)
  | [] => [x]
  | y :: ys => if leaderKey x < leaderKey y then y :: insertDesc x ys else x :: y :: ys

/-- Stable sort by `total_duration` descending. Python's
`sorted(..., key=..., reverse=True)` is the unique permutation that is
non-increasing in the key and keeps equal-key items in their original order;
this insertion sort is proved below to have exactly those three properties. -/
def sortDesc : List (String × UsageRecord) → List (String × UsageRecord)
  | [] => []
  | x :: xs => insertDesc x (sortDesc xs)

/-- `StatsManager.get_leaderboard`: the first `limit` items of the stable
descending sort. -/
def get_leaderboard (stats : Stats) (limit : Nat) : List (String × UsageRecord) :=
  (sortDesc stats).take limit

/-- Session key extraction in the poll loop:
`ip = client.split(':')[0] if ':' in client else client` — the prefix of the
token before its FIRST colon. -/
def clientKey (c : String) : String :=
  if ':' ∈ c.data then firstField c else c

/-- The spec's wording of the session key ("strip trailing `:port`", i.e.
everything before the FINAL colon), stated for comparison with the code's
`clientKey`. -/
def specSessionKey (c : String) : String :=
  if ':' ∈ c.data then ⟨((c.data.reverse.dropWhile (fun x => !decide (x = ':'))).drop 1).reverse⟩
  else c

/-- `current_client_ips`: the set of session keys of the raw client tokens.
Python builds a `set`; it is modelled as an in-order deduplicated list (only
membership in the set is ever used; set iteration order is unspecified in the
source). -/
def currentClientIps (activeClients : List String) : List String :=
  activeClients.foldl (fun acc c =>
    let ip := clientKey c
    if ip ∈ acc then acc else acc ++ [ip]) []

/-- Closing of one departed session: `start_time = client_sessions.pop(ip)`,
`duration = loop_time - start_time`, `stats_manager.update_client(ip, duration)`.
The third component records the `(ip, duration)` arguments handed to the
stats store. `pop` on a dict removes the unique entry for the key. -/
def closeStep (loopTime now : Rat)
    (acc : List (String × Rat) × Stats × List (String × Rat)) (ip : String) :
    List (String × Rat) × Stats × List (String × Rat) :=
  let start :=
    match acc.1.find? (fun e => decide (e.1 = ip)) with
    | some e => e.2
    | none => 0
  (acc.1.filter (fun e => !decide (e.1 = ip)),
   update_client acc.2.1 ip (loopTime - start) now,
   acc.2.2 ++ [(ip, loopTime - start)])

/-- Result of one poll-loop reconciliation pass: the updated session dict and
stats store, plus the session opens and the `(ip, duration)` stats updates it
performed. -/
structure PollResult where
  sessions : List (String × Rat)
  stats : Stats
  opened : List String
  closed : List (String × Rat)
deriving DecidableEq

/-- The per-poll session reconciliation of `main`: open a session at
`loop_time` for each current ip not yet tracked, then close (pop and account)
each tracked ip no longer current. `new_ips` and `left_ips` are Python set
differences; they are modelled as in-order filters (the claims proved about
this function do not depend on set iteration order). -/
def pollStep (loopTime now : Rat) (activeClients : List String)
    (sessions : List (String × Rat)) (stats : Stats) : PollResult :=
  let currentIps := currentClientIps activeClients
  let trackedIps := sessions.map Prod.fst
  let newIps := currentIps.filter (fun ip => !decide (ip ∈ trackedIps))
  let sessions1 := sessions ++ newIps.map (fun ip => (ip, loopTime))
  let leftIps := trackedIps.filter (fun ip => !decide (ip ∈ currentIps))
  let r := leftIps.foldl (closeStep loopTime now) (sessions1, stats, [])
  ⟨r.1, r.2.1, newIps, r.2.2⟩

/-- The flush on a connectivity transition to disconnected: iterate the open
sessions in dict order; for each, when `flush_time - start_time` is strictly
positive, hand the duration to `update_client` and reset the session's start
to `flush_time`; otherwise leave the entry untouched. Dict keys are unique
and only values are reassigned during the iteration, so the loop is the
structural recursion below. -/
def flushSessions (ft now : Rat) :
    List (String × Rat) → Stats → List (String × Rat) × Stats
  | [], stats => ([], stats)
  | (ip, st) :: rest, stats =>
    if 0 < ft - st then
      let stats2 := update_client stats ip (ft - st) now
      let r := flushSessions ft now rest stats2
      ((ip, ft) :: r.1, r.2)
    else
      let r := flushSessions ft now rest stats
      ((ip, st) :: r.1, r.2)

/-- Observable states of the stats file at startup: absent, present but
unreadable-or-invalid-JSON (the `except Exception` branch), or readable with
parsed contents. -/
inductive StatsFile where
  | absent
  | unreadable
  | present (s : Stats)
deriving DecidableEq

/-- `StatsManager.load_stats`: `{}` when the file is absent, `{}` when
opening or JSON-decoding raises, else the parsed contents. Never raises. -/
def load_stats : StatsFile → Stats
  | .absent => []
  | .unreadable => []
  | .present s => s

/-- `StatsManager.save_stats`: rewrite the whole file from the in-memory
store (the document written is exactly the current store). -/
def save_stats (stats : Stats) : StatsFile :=
  .present stats

theorem applyUpd_fst (ip : String) (dur now : Rat) (e : String × UsageRecord) :
    (applyUpd ip dur now e).1 = e.1 := by
  unfold applyUpd; split <;> rfl

theorem applyUpd_ne (ip : String) (dur now : Rat) (e : String × UsageRecord)
    (h : e.1 ≠ ip) : applyUpd ip dur now e = e := by
  unfold applyUpd; simp [h]

theorem find?_map_applyUpd (stats : Stats) (ip jp : String) (dur now : Rat) :
    (stats.map (applyUpd ip dur now)).find? (fun e => decide (e.1 = jp))
      = (stats.find? (fun e => decide (e.1 = jp))).map (applyUpd ip dur now) := by
  induction stats with
  | nil => rfl
  | cons e rest ih =>
    by_cases h : e.1 = jp
    · rw [List.map_cons,
        List.find?_cons_of_pos _ (by simp [applyUpd_fst, h]),
        List.find?_cons_of_pos _ (by simp [h])]
      rfl
    · rw [List.map_cons,
        List.find?_cons_of_neg _ (by simp [applyUpd_fst, h]),
        List.find?_cons_of_neg _ (by simp [h])]
      exact ih

theorem find?_append_none {α : Type} (p : α → Bool) (l1 l2 : List α)
    (h : l1.find? p = none) : (l1 ++ l2).find? p = l2.find? p := by
  induction l1 with
  | nil => rfl
  | cons a l ih =>
    by_cases hp : p a = true
    · rw [List.find?_cons_of_pos _ hp] at h; exact absurd h (by simp)
    · rw [List.find?_cons_of_neg _ (by simpa using hp)] at h
      rw [List.cons_append, List.find?_cons_of_neg _ (by simpa using hp)]
      exact ih h

theorem find?_append_some {α : Type} (p : α → Bool) (l1 l2 : List α) (a : α)
    (h : l1.find? p = some a) : (l1 ++ l2).find? p = some a := by
  induction l1 with
  | nil => exact absurd h (by simp)
  | cons b l ih =>
    by_cases hp : p b = true
    · rw [List.find?_cons_of_pos _ hp] at h
      rw [List.cons_append, List.find?_cons_of_pos _ hp]
      exact h
    · rw [List.find?_cons_of_neg _ (by simpa using hp)] at h
      rw [List.cons_append, List.find?_cons_of_neg _ (by simpa using hp)]
      exact ih h

theorem totalOf_update_self (stats : Stats) (ip : String) (dur now : Rat) :
    totalOf (update_client stats ip dur now) ip = totalOf stats ip + dur := by
  unfold update_client totalOf
  by_cases hany : stats.any (fun e => decide (e.1 = ip)) = true
  · rw [if_pos hany, find?_map_applyUpd]
    obtain ⟨e, hmem, hpe⟩ := List.any_eq_true.mp hany
    have hsome : (stats.find? (fun e => decide (e.1 = ip))).isSome := by
      rw [List.find?_isSome]; exact ⟨e, hmem, hpe⟩
    obtain ⟨a, ha⟩ := Option.isSome_iff_exists.mp hsome
    have hka : a.1 = ip := by simpa using List.find?_some ha
    rw [ha]
    simp [applyUpd, hka]
  · rw [if_neg hany, find?_map_applyUpd]
    have hnone : stats.find? (fun e => decide (e.1 = ip)) = none := by
      rw [List.find?_eq_none]
      intro a hmem hpa
      exact hany (List.any_eq_true.mpr ⟨a, hmem, hpa⟩)
    rw [find?_append_none _ _ _ hnone, hnone]
    simp [applyUpd]

theorem totalOf_update_ne (stats : Stats) (ip jp : String) (dur now : Rat)
    (h : jp ≠ ip) :
    totalOf (update_client stats ip dur now) jp = totalOf stats jp := by
  unfold update_client totalOf
  by_cases hany : stats.any (fun e => decide (e.1 = ip)) = true
  · rw [if_pos hany, find?_map_applyUpd]
    cases hf : stats.find? (fun e => decide (e.1 = jp)) with
    | none => rfl
    | some a =>
      have hka : a.1 = jp := by simpa using List.find?_some hf
      simp [applyUpd_ne ip dur now a (by rw [hka]; exact h)]
  · rw [if_neg hany, find?_map_applyUpd]
    cases hf : stats.find? (fun e => decide (e.1 = jp)) with
    | none =>
      rw [find?_append_none _ _ _ hf,
        List.find?_cons_of_neg _ (by simpa using fun hc => h hc.symm)]
      rfl
    | some a =>
      have hka : a.1 = jp := by simpa using List.find?_some hf
      rw [find?_append_some _ _ _ _ hf]
      simp [applyUpd_ne ip dur now a (by rw [hka]; exact h)]

theorem totalOf_foldl_mono (updates : List (String × Rat × Rat)) (stats : Stats)
    (ip : String) (h : ∀ u ∈ updates, 0 ≤ u.2.1) :
    totalOf stats ip
      ≤ totalOf (updates.foldl (fun s u => update_client s u.1 u.2.1 u.2.2) stats) ip := by
  revert h
  induction updates generalizing stats with
  | nil => intro h; simp
  | cons u rest ih =>
    intro h
    simp only [List.foldl_cons]
    refine le_trans ?_ (ih _ (fun v hv => h v (List.mem_cons_of_mem _ hv)))
    by_cases hk : ip = u.1
    · subst hk
      have h0 : 0 ≤ u.2.1 := h u (List.mem_cons_self _ _)
      rw [totalOf_update_self]
      linarith
    · rw [totalOf_update_ne _ _ _ _ _ hk]

theorem dockerStep_cases (sp : Option Int) (t : List PyVal) (cl : List String)
    (acc acc2 : List ConnDetails) (l : NetLine)
    (h : dockerStep sp t cl acc l = some acc2) :
    acc2 = acc ∨
    ∃ cp : Int, lineEligible l = true ∧ isClientLine sp cl l = false ∧
      pyInt (lastField (remoteAddr l)) = some cp ∧
      matchResult t (remoteAddr l) cp = some true ∧
      acc.any (fun e => decide (e.remote = remoteAddr l) && decide (e.port = cp)) = false ∧
      acc2 = acc ++ [mkDetails l cp] := by
  unfold dockerStep at h
  by_cases h1 : lineEligible l = false
  · rw [if_pos h1] at h
    exact Or.inl (Option.some.inj h).symm
  · rw [if_neg h1] at h
    by_cases h2 : isClientLine sp cl l = true
    · rw [if_pos h2] at h
      exact Or.inl (Option.some.inj h).symm
    · rw [if_neg h2] at h
      cases hp : pyInt (lastField (remoteAddr l)) with
      | none =>
        rw [hp] at h
        exact Or.inl (Option.some.inj h).symm
      | some cp =>
        rw [hp] at h
        have h3 : (match matchResult t (remoteAddr l) cp with
            | none => none
            | some false => some acc
            | some true =>
              if (acc.any fun e => decide (e.remote = remoteAddr l) && decide (e.port = cp))
                  = true
              then some acc
              else some (acc ++ [mkDetails l cp])) = some acc2 := h
        cases hm : matchResult t (remoteAddr l) cp with
        | none =>
          rw [hm] at h3
          exact Option.noConfusion (show (none : Option (List ConnDetails)) = some acc2 from h3)
        | some b =>
          rw [hm] at h3
          cases b with
          | false => exact Or.inl (Option.some.inj h3).symm
          | true =>
            have h4 : (if (acc.any fun e =>
                  decide (e.remote = remoteAddr l) && decide (e.port = cp)) = true
                then some acc
                else some (acc ++ [mkDetails l cp])) = some acc2 := h3
            by_cases hd : acc.any
                (fun e => decide (e.remote = remoteAddr l) && decide (e.port = cp)) = true
            · rw [if_pos hd] at h4
              exact Or.inl (Option.some.inj h4).symm
            · rw [if_neg hd] at h4
              exact Or.inr ⟨cp, by simpa using h1, by simpa using h2, rfl, hm,
                by simpa using hd, (Option.some.inj h4).symm⟩

theorem dockerFold_prefix (sp : Option Int) (t : List PyVal) (cl : List String)
    (lines : List NetLine) (acc out : List ConnDetails)
    (h : dockerFold sp t cl lines acc = some out) :
    ∃ d : List ConnDetails, out = acc ++ d := by
  induction lines generalizing acc with
  | nil =>
    simp only [dockerFold] at h
    exact ⟨[], by rw [List.append_nil, Option.some.inj h]⟩
  | cons l ls ih =>
    simp only [dockerFold] at h
    cases hs : dockerStep sp t cl acc l with
    | none => rw [hs] at h; cases h
    | some acc2 =>
      rw [hs] at h
      obtain ⟨d2, hd2⟩ := ih acc2 h
      rcases dockerStep_cases sp t cl acc acc2 l hs with heq | ⟨cp, _, _, _, _, _, happ⟩
      · exact ⟨d2, by rw [hd2, heq]⟩
      · exact ⟨mkDetails l cp :: d2, by rw [hd2, happ, List.append_assoc]; rfl⟩

theorem check_docker_inv (cmdResult : Option (List NetLine)) (targets : List PyVal)
    (socksPort : Option Int) (conns : List ConnDetails) (clients : List String)
    (hres : check_docker_connections cmdResult targets socksPort = (some conns, some clients)) :
    clients = collectClients socksPort (get_docker_netstat_output cmdResult)
    ∧ dockerFold socksPort targets clients (get_docker_netstat_output cmdResult) []
        = some conns := by
  simp only [check_docker_connections] at hres
  cases hdf : dockerFold socksPort targets
      (collectClients socksPort (get_docker_netstat_output cmdResult))
      (get_docker_netstat_output cmdResult) [] with
  | none =>
    rw [hdf] at hres
    simp at hres
  | some x =>
    rw [hdf] at hres
    have h1 := congrArg Prod.fst hres
    have h2 := congrArg Prod.snd hres
    simp only [Option.some.injEq] at h1 h2
    refine ⟨h2.symm, ?_⟩
    rw [← h2, hdf, h1]

theorem dockerFold_entries (sp : Option Int) (t : List PyVal) (cl : List String)
    (P : ConnDetails → Prop) (lines : List NetLine) (acc out : List ConnDetails)
    (hstep : ∀ l ∈ lines, ∀ cp : Int, lineEligible l = true →
      isClientLine sp cl l = false → pyInt (lastField (remoteAddr l)) = some cp →
      matchResult t (remoteAddr l) cp = some true → P (mkDetails l cp))
    (hacc : ∀ e ∈ acc, P e) (h : dockerFold sp t cl lines acc = some out) :
    ∀ e ∈ out, P e := by
  revert hstep hacc h
  induction lines generalizing acc with
  | nil =>
    intro hstep hacc h
    simp only [dockerFold] at h
    rw [← Option.some.inj h]
    exact hacc
  | cons l ls ih =>
    intro hstep hacc h
    simp only [dockerFold] at h
    cases hs : dockerStep sp t cl acc l with
    | none => rw [hs] at h; cases h
    | some acc2 =>
      rw [hs] at h
      refine ih acc2 (fun l2 hl2 => hstep l2 (List.mem_cons_of_mem _ hl2)) ?_ h
      rcases dockerStep_cases sp t cl acc acc2 l hs with heq | ⟨cp, h1, h2, hp, hm, _, happ⟩
      · rw [heq]; exact hacc
      · rw [happ]
        intro e he
        rcases List.mem_append.mp he with hea | heb
        · exact hacc e hea
        · rw [List.mem_singleton.mp heb]
          exact hstep l (List.mem_cons_self _ _) cp h1 h2 hp hm

theorem dockerFold_pairwise (sp : Option Int) (t : List PyVal) (cl : List String)
    (lines : List NetLine) (acc out : List ConnDetails)
    (hacc : acc.Pairwise (fun a b => ¬(a.remote = b.remote ∧ a.port = b.port)))
    (h : dockerFold sp t cl lines acc = some out) :
    out.Pairwise (fun a b => ¬(a.remote = b.remote ∧ a.port = b.port)) := by
  revert hacc h
  induction lines generalizing acc with
  | nil =>
    intro hacc h
    simp only [dockerFold] at h
    rw [← Option.some.inj h]
    exact hacc
  | cons l ls ih =>
    intro hacc h
    simp only [dockerFold] at h
    cases hs : dockerStep sp t cl acc l with
    | none => rw [hs] at h; cases h
    | some acc2 =>
      rw [hs] at h
      refine ih acc2 ?_ h
      rcases dockerStep_cases sp t cl acc acc2 l hs with heq | ⟨cp, _, _, _, _, hdup, happ⟩
      · rw [heq]; exact hacc
      · rw [happ, List.pairwise_append]
        refine ⟨hacc, List.pairwise_singleton _ _, ?_⟩
        intro a ha b hb
        rw [List.mem_singleton.mp hb]
        rintro ⟨hr, hq⟩
        have : acc.any (fun e => decide (e.remote = remoteAddr l) && decide (e.port = cp))
            = true := by
          refine List.any_eq_true.mpr ⟨a, ha, ?_⟩
          simp only [mkDetails] at hr hq
          simp [hr, hq]
        rw [this] at hdup
        cases hdup

theorem dockerFold_complete (sp : Option Int) (t : List PyVal) (cl : List String)
    (lines : List NetLine) (acc out : List ConnDetails) (l : NetLine) (cp : Int)
    (hl : l ∈ lines) (h1 : lineEligible l = true) (h2 : isClientLine sp cl l = false)
    (hp : pyInt (lastField (remoteAddr l)) = some cp)
    (hm : matchResult t (remoteAddr l) cp = some true)
    (h : dockerFold sp t cl lines acc = some out) :
    ∃ e ∈ out, e.remote = remoteAddr l ∧ e.port = cp := by
  revert hl h
  induction lines generalizing acc with
  | nil => intro hl _; cases hl
  | cons l0 ls ih =>
    intro hl h
    simp only [dockerFold] at h
    cases hs : dockerStep sp t cl acc l0 with
    | none => rw [hs] at h; cases h
    | some acc2 =>
      rw [hs] at h
      rcases List.mem_cons.mp hl with rfl | hl2
      · have hkey : ∃ e ∈ acc2, e.remote = remoteAddr l ∧ e.port = cp := by
          unfold dockerStep at hs
          rw [if_neg (by simp [h1]), if_neg (by simp [h2]), hp] at hs
          have hs2 : (match matchResult t (remoteAddr l) cp with
              | none => none
              | some false => some acc
              | some true =>
                if (acc.any fun e =>
                    decide (e.remote = remoteAddr l) && decide (e.port = cp)) = true
                then some acc
                else some (acc ++ [mkDetails l cp])) = some acc2 := hs
          rw [hm] at hs2
          have hs3 : (if (acc.any fun e =>
                decide (e.remote = remoteAddr l) && decide (e.port = cp)) = true
              then some acc
              else some (acc ++ [mkDetails l cp])) = some acc2 := hs2
          by_cases hd : acc.any
              (fun e => decide (e.remote = remoteAddr l) && decide (e.port = cp)) = true
          · rw [if_pos hd] at hs3
            obtain ⟨e, he, hpe⟩ := List.any_eq_true.mp hd
            simp only [Bool.and_eq_true, decide_eq_true_eq] at hpe
            exact ⟨e, by rw [← Option.some.inj hs3]; exact he, hpe.1, hpe.2⟩
          · rw [if_neg hd] at hs3
            refine ⟨mkDetails l cp, ?_, rfl, rfl⟩
            rw [← Option.some.inj hs3]
            exact List.mem_append_right _ (List.mem_singleton_self _)
        obtain ⟨e, he2, hprops⟩ := hkey
        obtain ⟨d, hd2⟩ := dockerFold_prefix sp t cl ls acc2 out h
        exact ⟨e, hd2 ▸ List.mem_append_left _ he2, hprops⟩
      · exact ih acc2 hl2 h

theorem countP_eq_one_of_pairwise_not_both {α : Type} (p : α → Bool) (l : List α)
    (hpw : l.Pairwise (fun a b => ¬(p a = true ∧ p b = true)))
    (e : α) (he : e ∈ l) (hpe : p e = true) : l.countP p = 1 := by
  induction l with
  | nil => cases he
  | cons a rest ih =>
    rw [List.pairwise_cons] at hpw
    rw [List.countP_cons]
    rcases List.mem_cons.mp he with rfl | he2
    · rw [hpe, if_pos rfl]
      have hz : rest.countP p = 0 := by
        rw [List.countP_eq_zero]
        intro b hb hpb
        exact hpw.1 b hb ⟨hpe, hpb⟩
      rw [hz]
    · have hpa : ¬ p a = true := fun hpa => hpw.1 e he2 ⟨hpa, hpe⟩
      rw [ih hpw.2 he2]
      simp [hpa]

/-- C1 amended: in the container backend, with a truthy forwarding port, a
connection whose local port equals the forwarding port is never reported as a
target match — every entry of the returned match list carries a local address
whose port does not parse to the forwarding port. (The host backend violates
the original claim; see the counterexample.) -/
theorem docker_no_match_on_socks_local_port (cmdResult : Option (List NetLine))
    (targets : List PyVal) (sp : Int) (hsp : sp ≠ 0)
    (conns : List ConnDetails) (clients : List String)
    (hres : check_docker_connections cmdResult targets (some sp) = (some conns, some clients))
    (c : ConnDetails) (hc : c ∈ conns) :
    pyInt (lastField c.localA) ≠ some sp := by
  obtain ⟨hcl, hfold⟩ := check_docker_inv cmdResult targets (some sp) conns clients hres
  refine dockerFold_entries (some sp) targets clients
    (fun e => pyInt (lastField e.localA) ≠ some sp)
    (get_docker_netstat_output cmdResult) [] conns ?_ (by intro e he; cases he) hfold c hc
  intro l _ cp _ h2 _ _
  show pyInt (lastField (localAddr l)) ≠ some sp
  intro hc2
  unfold isClientLine at h2
  rw [hc2] at h2
  simp [pyTruthy, hsp] at h2

/-- C1 witness: the container-backend theorem applied to a single established
line with local port 5555 ≠ 1080 and remote port 9000 matching the target,
which the backend reports; the theorem yields that its local port does not
parse to the forwarding port 1080. -/
theorem docker_no_match_on_socks_local_port_witness :
    pyInt (lastField ((⟨"8.8.8.8:9000", "10.0.0.9:5555", 9000, "Unknown"⟩ :
      ConnDetails).localA)) ≠ some 1080 :=
  docker_no_match_on_socks_local_port
    (some [⟨["tcp", "0", "0", "10.0.0.9:5555", "8.8.8.8:9000", "ESTABLISHED"], true⟩])
    [PyVal.pstr "9000"] 1080 (by decide)
    [⟨"8.8.8.8:9000", "10.0.0.9:5555", 9000, "Unknown"⟩] [] (by decide)
    ⟨"8.8.8.8:9000", "10.0.0.9:5555", 9000, "Unknown"⟩ (by decide)

/-- C2 amended: exactly-once deduplication holds in the container backend —
its output never contains two entries with the same `(remote, port)` pair,
and any established, non-client line whose remote port parses and matches an
explicit (non-wildcard) target port contributes its `(remote, port)` pair to
the output exactly once, even when the raw listing repeats the line. (The
host backend performs no deduplication and violates the original claim; see
the counterexample.) -/
theorem docker_target_match_exactly_once (cmdResult : Option (List NetLine))
    (targets : List PyVal) (socksPort : Option Int)
    (conns : List ConnDetails) (clients : List String)
    (hstar : targets.any pyValIsStar = false)
    (hres : check_docker_connections cmdResult targets socksPort = (some conns, some clients)) :
    conns.Pairwise (fun a b => ¬(a.remote = b.remote ∧ a.port = b.port))
    ∧ ∀ l ∈ get_docker_netstat_output cmdResult, ∀ cp : Int,
        lineEligible l = true → isClientLine socksPort clients l = false →
        pyInt (lastField (remoteAddr l)) = some cp →
        explicitMatchLoop targets cp = some true →
        conns.countP (fun e => decide (e.remote = remoteAddr l) && decide (e.port = cp))
          = 1 := by
  obtain ⟨hcl, hfold⟩ := check_docker_inv cmdResult targets socksPort conns clients hres
  have hpw := dockerFold_pairwise socksPort targets clients
    (get_docker_netstat_output cmdResult) [] conns List.Pairwise.nil hfold
  refine ⟨hpw, ?_⟩
  intro l hl cp h1 h2 hp hm
  have hm2 : matchResult targets (remoteAddr l) cp = some true := by
    unfold matchResult
    rw [if_neg (by simp [hstar])]
    exact hm
  obtain ⟨e, he, hprops⟩ := dockerFold_complete socksPort targets clients
    (get_docker_netstat_output cmdResult) [] conns l cp hl h1 h2 hp hm2 hfold
  refine countP_eq_one_of_pairwise_not_both _ conns (hpw.imp ?_) e he
    (by simp [hprops.1, hprops.2])
  intro a b hab
  rintro ⟨hpa, hpb⟩
  simp only [Bool.and_eq_true, decide_eq_true_eq] at hpa hpb
  exact hab ⟨hpa.1.trans hpb.1.symm, hpa.2.trans hpb.2.symm⟩

/-- C2 witness: the exactly-once theorem applied to a container listing that
repeats the same remote pair 8.8.8.8:9000 on two raw lines; the reported
match list contains that pair exactly once. -/
theorem docker_target_match_exactly_once_witness :
    ([(⟨"8.8.8.8:9000", "10.0.0.9:5555", 9000, "Unknown"⟩ : ConnDetails)].countP
      (fun e => decide (e.remote = "8.8.8.8:9000") && decide (e.port = 9000))) = 1 :=
  (docker_target_match_exactly_once
    (some [⟨["tcp", "0", "0", "10.0.0.9:5555", "8.8.8.8:9000", "ESTABLISHED"], true⟩,
           ⟨["tcp", "0", "0", "10.0.0.9:5555", "8.8.8.8:9000", "ESTABLISHED"], true⟩])
    [PyVal.pstr "9000"] none
    [⟨"8.8.8.8:9000", "10.0.0.9:5555", 9000, "Unknown"⟩] [] (by decide) (by decide)).2
    ⟨["tcp", "0", "0", "10.0.0.9:5555", "8.8.8.8:9000", "ESTABLISHED"], true⟩ (by decide)
    9000 (by decide) (by decide) (by decide) (by decide)

theorem host_wildcard_iff (socksPort : Int) (targets : List PyVal)
    (lip : String) (lport : Int) (rip : String) (rp pid : Int) (pn : Option String)
    (hstar : targets.any pyValIsStar = true) (hrp : rp ≠ 0) :
    (check_connections socksPort targets
        [⟨true, lip, lport, some (rip, rp), pid, pn⟩]).1 ≠ []
      ↔ (rip ≠ "127.0.0.1" ∧ rip ≠ "::1") := by
  show (hostStep socksPort targets ([], []) ⟨true, lip, lport, some (rip, rp), pid, pn⟩).1
      ≠ [] ↔ _
  unfold hostStep
  rw [if_pos rfl]
  simp only
  rw [if_pos hrp, if_pos hstar]
  by_cases hcond : rip ≠ "127.0.0.1" ∧ rip ≠ "::1"
  · rw [if_pos (by simp [hcond.1, hcond.2])]
    simp [hcond.1, hcond.2]
  · rw [if_neg (by simpa using hcond)]
    simp [hcond]

theorem docker_wildcard_entries_not_loopback (cmdResult : Option (List NetLine))
    (targets : List PyVal) (socksPort : Option Int)
    (conns : List ConnDetails) (clients : List String)
    (hstar : targets.any pyValIsStar = true)
    (hres : check_docker_connections cmdResult targets socksPort = (some conns, some clients)) :
    ∀ e ∈ conns, strStartsWith e.remote "127.0.0.1" = false
      ∧ strStartsWith e.remote "::1" = false := by
  obtain ⟨hcl, hfold⟩ := check_docker_inv cmdResult targets socksPort conns clients hres
  refine dockerFold_entries socksPort targets clients
    (fun e => strStartsWith e.remote "127.0.0.1" = false ∧ strStartsWith e.remote "::1" = false)
    (get_docker_netstat_output cmdResult) [] conns ?_ (by intro e he; cases he) hfold
  intro l _ cp _ _ _ hm
  unfold matchResult at hm
  rw [if_pos hstar] at hm
  have hw : wildcardExcl (remoteAddr l) = true := Option.some.inj hm
  unfold wildcardExcl at hw
  rw [Bool.and_eq_true] at hw
  show strStartsWith (remoteAddr l) "127.0.0.1" = false
    ∧ strStartsWith (remoteAddr l) "::1" = false
  exact ⟨by simpa using hw.1, by simpa using hw.2⟩

/-- C4 amended: wildcard loopback exclusion differs between the backends. In
the host backend a single established connection with nonzero remote port is
matched iff its remote IP is exactly neither "127.0.0.1" nor "::1" (so
127.0.0.10 is matched). In the container backend every reported match's raw
remote token starts with neither "127.0.0.1" nor "::1" — a `startswith` test,
so 127.0.0.10 is excluded there (see the counterexample). On the spec's
example — wildcard target, connections solely to 10.0.0.5:9000 and
127.0.0.1:9000 — both backends produce exactly the one non-loopback match. -/
theorem wildcard_loopback_exclusion_semantics :
    (∀ (socksPort : Int) (targets : List PyVal) (lip : String) (lport : Int)
        (rip : String) (rp pid : Int) (pn : Option String),
      targets.any pyValIsStar = true → rp ≠ 0 →
      ((check_connections socksPort targets
          [⟨true, lip, lport, some (rip, rp), pid, pn⟩]).1 ≠ []
        ↔ (rip ≠ "127.0.0.1" ∧ rip ≠ "::1")))
    ∧ (∀ (cmdResult : Option (List NetLine)) (targets : List PyVal)
        (socksPort : Option Int) (conns : List ConnDetails) (clients : List String),
      targets.any pyValIsStar = true →
      check_docker_connections cmdResult targets socksPort = (some conns, some clients) →
      ∀ e ∈ conns, strStartsWith e.remote "127.0.0.1" = false
        ∧ strStartsWith e.remote "::1" = false)
    ∧ (check_connections 1080 [PyVal.pstr "*"]
        [⟨true, "10.0.0.2", 4444, some ("10.0.0.5", 9000), 0, none⟩,
         ⟨true, "10.0.0.2", 4445, some ("127.0.0.1", 9000), 0, none⟩]).1
      = [⟨"10.0.0.5:9000", "10.0.0.2:4444", 9000, "Unknown"⟩]
    ∧ (check_docker_connections (some
        [⟨["tcp", "0", "0", "10.0.0.2:4444", "10.0.0.5:9000", "ESTABLISHED"], true⟩,
         ⟨["tcp", "0", "0", "10.0.0.2:4445", "127.0.0.1:9000", "ESTABLISHED"], true⟩])
        [PyVal.pstr "*"] none).1
      = some [⟨"10.0.0.5:9000", "10.0.0.2:4444", 9000, "Unknown"⟩] :=
  ⟨fun socksPort targets lip lport rip rp pid pn hstar hrp =>
    host_wildcard_iff socksPort targets lip lport rip rp pid pn hstar hrp,
   fun cmdResult targets socksPort conns clients hstar hres =>
    docker_wildcard_entries_not_loopback cmdResult targets socksPort conns clients hstar hres,
   by decide, by decide⟩

/-- C4 witness: the wildcard-semantics theorem applied concretely — the host
backend matches the non-loopback remote IP 127.0.0.10 under a wildcard
target. -/
theorem wildcard_loopback_exclusion_semantics_witness :
    (check_connections 1080 [PyVal.pstr "*"]
        [⟨true, "10.0.0.2", 4444, some ("127.0.0.10", 9000), 0, none⟩]).1 ≠ [] :=
  (wildcard_loopback_exclusion_semantics.1 1080 [PyVal.pstr "*"] "10.0.0.2" 4444
    "127.0.0.10" 9000 0 none (by decide) (by decide)).mpr (by decide)

/-- C1 counterexample: the host backend `check_connections` applies no client
exclusion in its target pass. An established connection with local port 1080
(the forwarding port) and remote port 9000 (a configured target) is reported
both as the proxy client "5.5.5.5:9000" and as a target match, refuting the
claim for the host backend. -/
theorem host_reports_socks_local_connection_as_target :
    (check_connections 1080 [PyVal.pint 9000]
        [⟨true, "10.0.0.1", 1080, some ("5.5.5.5", 9000), 42, none⟩]).1
      = [⟨"5.5.5.5:9000", "10.0.0.1:1080", 9000, "Unknown"⟩]
    ∧ (check_connections 1080 [PyVal.pint 9000]
        [⟨true, "10.0.0.1", 1080, some ("5.5.5.5", 9000), 42, none⟩]).2
      = ["5.5.5.5:9000"]
    ∧ pyInt (lastField "10.0.0.1:1080") = some 1080 := by decide

/-- C2 counterexample: the host backend performs no deduplication of target
matches. Two established connections (different local ports) to the same
remote pair 8.8.8.8:9000 produce two output entries for that pair, refuting
the exactly-once claim for the host backend. -/
theorem host_emits_duplicate_target_entries :
    ((check_connections 1080 [PyVal.pint 9000]
        [⟨true, "10.0.0.1", 5001, some ("8.8.8.8", 9000), 1, none⟩,
         ⟨true, "10.0.0.1", 5002, some ("8.8.8.8", 9000), 2, none⟩]).1.countP
      (fun e => decide (e.remote = "8.8.8.8:9000" ∧ e.port = 9000))) = 2 := by decide

/-- C3: when the container listing command itself fails,
`get_docker_netstat_output` swallows the exception and returns `[]`, so
`check_docker_connections` returns the ordinary empty result `([], [])` and
`main`'s sentinel guard does not skip the poll — the failure is processed as
"no connections". The `(None, None)` sentinel and the guard do exist, but
they fire only when an exception escapes inside `check_docker_connections`
itself (e.g. a non-numeric, non-wildcard `target_ports` entry reached by an
otherwise matching line), as the last two conjuncts show. -/
theorem docker_command_failure_not_skipped :
    get_docker_netstat_output none = []
    ∧ check_docker_connections none [PyVal.pstr "8080"] (some 1080) = (some [], some [])
    ∧ mainSkipsPoll (check_docker_connections none [PyVal.pstr "8080"] (some 1080)) = false
    ∧ check_docker_connections
        (some [⟨["tcp","0","0","10.0.0.9:5555","8.8.8.8:9000","ESTABLISHED"], true⟩])
        [PyVal.pstr "bad"] none
      = (none, none)
    ∧ mainSkipsPoll ((none, none) : Option (List ConnDetails) × Option (List String))
      = true := by decide

/-- C4 counterexample: under wildcard targets the container backend tests the
raw remote token with `startswith("127.0.0.1")`, so the non-loopback remote
IP 127.0.0.10 is also excluded there — no match is produced, refuting the
"only those two loopback forms are excluded" claim for the container
backend. -/
theorem docker_wildcard_excludes_127_0_0_10 :
    check_docker_connections
        (some [⟨["tcp","0","0","10.0.0.2:4444","127.0.0.10:9000","ESTABLISHED"], true⟩])
        [PyVal.pstr "*"] none
      = (some [], some [])
    ∧ ("127.0.0.10" : String) ≠ "127.0.0.1"
    ∧ ("127.0.0.10" : String) ≠ "::1" := by decide

theorem flushSessions_keys (ft now : Rat) (sessions : List (String × Rat)) (stats : Stats) :
    (flushSessions ft now sessions stats).1.map Prod.fst = sessions.map Prod.fst := by
  induction sessions generalizing stats with
  | nil => rfl
  | cons s rest ih =>
    obtain ⟨ip, st⟩ := s
    simp only [flushSessions]
    by_cases hd : 0 < ft - st
    · rw [if_pos hd]; simp [ih]
    · rw [if_neg hd]; simp [ih]

theorem flushSessions_total_of_not_mem (ft now : Rat) (sessions : List (String × Rat))
    (stats : Stats) (ip : String) (h : ip ∉ sessions.map Prod.fst) :
    totalOf (flushSessions ft now sessions stats).2 ip = totalOf stats ip := by
  induction sessions generalizing stats with
  | nil => rfl
  | cons s rest ih =>
    obtain ⟨jp, st⟩ := s
    simp only [List.map_cons, List.mem_cons, not_or] at h
    simp only [flushSessions]
    by_cases hd : 0 < ft - st
    · rw [if_pos hd, ih _ h.2, totalOf_update_ne _ _ _ _ _ h.1]
    · rw [if_neg hd]; exact ih _ h.2

theorem flushSessions_entry (ft now : Rat) (sessions : List (String × Rat)) (stats : Stats)
    (hkeys : (sessions.map Prod.fst).Nodup) (ip : String) (st : Rat)
    (hmem : (ip, st) ∈ sessions) :
    (0 < ft - st →
      (ip, ft) ∈ (flushSessions ft now sessions stats).1
      ∧ totalOf (flushSessions ft now sessions stats).2 ip = totalOf stats ip + (ft - st))
    ∧ (ft - st ≤ 0 →
      (ip, st) ∈ (flushSessions ft now sessions stats).1
      ∧ totalOf (flushSessions ft now sessions stats).2 ip = totalOf stats ip) := by
  induction sessions generalizing stats with
  | nil => cases hmem
  | cons s rest ih =>
    obtain ⟨jp, jt⟩ := s
    simp only [List.map_cons, List.nodup_cons] at hkeys
    rcases List.mem_cons.mp hmem with heq | hmem2
    · injection heq with h1 h2
      subst h1; subst h2
      simp only [flushSessions]
      constructor
      · intro hpos
        rw [if_pos hpos]
        exact ⟨List.mem_cons_self _ _,
          by rw [flushSessions_total_of_not_mem _ _ _ _ _ hkeys.1, totalOf_update_self]⟩
      · intro hneg
        rw [if_neg (not_lt.mpr hneg)]
        exact ⟨List.mem_cons_self _ _,
          flushSessions_total_of_not_mem _ _ _ _ _ hkeys.1⟩
    · have hip : ip ∈ rest.map Prod.fst := List.mem_map_of_mem _ hmem2
      have hne : ip ≠ jp := fun hc => hkeys.1 (hc ▸ hip)
      simp only [flushSessions]
      by_cases hd : 0 < ft - jt
      · rw [if_pos hd]
        have hrec := ih (update_client stats jp (ft - jt) now) hkeys.2 hmem2
        constructor
        · intro hpos
          refine ⟨List.mem_cons_of_mem _ (hrec.1 hpos).1, ?_⟩
          rw [(hrec.1 hpos).2, totalOf_update_ne _ _ _ _ _ hne]
        · intro hneg
          refine ⟨List.mem_cons_of_mem _ (hrec.2 hneg).1, ?_⟩
          rw [(hrec.2 hneg).2, totalOf_update_ne _ _ _ _ _ hne]
      · rw [if_neg hd]
        have hrec := ih stats hkeys.2 hmem2
        exact ⟨fun hpos => ⟨List.mem_cons_of_mem _ (hrec.1 hpos).1, (hrec.1 hpos).2⟩,
          fun hneg => ⟨List.mem_cons_of_mem _ (hrec.2 hneg).1, (hrec.2 hneg).2⟩⟩

/-- C5: on a flush (connectivity transition to disconnected), for every open
session `(ip, st)` in the tracker: the tracked key sequence is unchanged;
when `flushTime - startTime` is strictly positive the stats store receives
exactly that duration for `ip` and the session restarts at `flushTime`
without being removed; when the duration is zero or negative the session and
the ip's stored total are both left untouched. -/
theorem flush_resets_and_accounts_positive_sessions (ft now : Rat)
    (sessions : List (String × Rat)) (stats : Stats)
    (hkeys : (sessions.map Prod.fst).Nodup) (ip : String) (st : Rat)
    (hmem : (ip, st) ∈ sessions) :
    (flushSessions ft now sessions stats).1.map Prod.fst = sessions.map Prod.fst
    ∧ (0 < ft - st →
        (ip, ft) ∈ (flushSessions ft now sessions stats).1
        ∧ totalOf (flushSessions ft now sessions stats).2 ip
            = totalOf stats ip + (ft - st))
    ∧ (ft - st ≤ 0 →
        (ip, st) ∈ (flushSessions ft now sessions stats).1
        ∧ totalOf (flushSessions ft now sessions stats).2 ip = totalOf stats ip) :=
  ⟨flushSessions_keys ft now sessions stats,
   (flushSessions_entry ft now sessions stats hkeys ip st hmem).1,
   (flushSessions_entry ft now sessions stats hkeys ip st hmem).2⟩

/-- C5 witness: a concrete flush at time 10 over the sessions
9.9.9.9 (started at 5, positive duration) and 8.8.8.8 (started at 12,
negative duration), instantiating the flush theorem at the first session. -/
theorem flush_resets_and_accounts_positive_sessions_witness :
    (flushSessions 10 11 [("9.9.9.9", 5), ("8.8.8.8", 12)] []).1.map Prod.fst
      = ["9.9.9.9", "8.8.8.8"]
    ∧ ((0 : Rat) < 10 - 5 →
        ("9.9.9.9", (10 : Rat)) ∈ (flushSessions 10 11 [("9.9.9.9", 5), ("8.8.8.8", 12)] []).1
        ∧ totalOf (flushSessions 10 11 [("9.9.9.9", 5), ("8.8.8.8", 12)] []).2 "9.9.9.9"
            = totalOf [] "9.9.9.9" + (10 - 5)) := by
  have h := flush_resets_and_accounts_positive_sessions 10 11
    [("9.9.9.9", 5), ("8.8.8.8", 12)] [] (by decide) "9.9.9.9" 5 (by decide)
  exact ⟨h.1, h.2.1⟩

/-- C6: `total_duration` accounting of the stats store — a single
`update_client` adds exactly the given delta to the stored total of the
updated ip, and across any sequence of updates with non-negative deltas the
stored total of any ip never decreases. -/
theorem stats_total_duration_monotone_and_exact (stats : Stats)
    (updates : List (String × Rat × Rat)) (h : ∀ u ∈ updates, 0 ≤ u.2.1)
    (ip : String) :
    totalOf stats ip
      ≤ totalOf (updates.foldl (fun s u => update_client s u.1 u.2.1 u.2.2) stats) ip
    ∧ ∀ dur now : Rat,
        totalOf (update_client stats ip dur now) ip = totalOf stats ip + dur :=
  ⟨totalOf_foldl_mono updates stats ip h,
   fun dur now => totalOf_update_self stats ip dur now⟩

/-- C6 witness: the monotonicity-and-exactness theorem instantiated at the
empty store with one 3-second update for 9.9.9.9. -/
theorem stats_total_duration_monotone_and_exact_witness :
    totalOf [] "9.9.9.9"
      ≤ totalOf ([("9.9.9.9", ((3 : Rat), (0 : Rat)))].foldl
          (fun s u => update_client s u.1 u.2.1 u.2.2) []) "9.9.9.9"
    ∧ ∀ dur now : Rat,
        totalOf (update_client [] "9.9.9.9" dur now) "9.9.9.9"
          = totalOf [] "9.9.9.9" + dur :=
  stats_total_duration_monotone_and_exact [] [("9.9.9.9", (3, 0))] (by decide) "9.9.9.9"

theorem perm_insertDesc (x : String × UsageRecord) (l : List (String × UsageRecord)) :
    (insertDesc x l).Perm (x :: l) := by
  induction l with
  | nil => exact List.Perm.refl _
  | cons y ys ih =>
    unfold insertDesc
    by_cases h : leaderKey x < leaderKey y
    · rw [if_pos h]
      exact (ih.cons y).trans (List.Perm.swap x y ys)
    · rw [if_neg h]

theorem sortDesc_perm (l : List (String × UsageRecord)) : (sortDesc l).Perm l := by
  induction l with
  | nil => exact List.Perm.refl _
  | cons x xs ih => exact (perm_insertDesc x (sortDesc xs)).trans (ih.cons x)

theorem pairwise_insertDesc (x : String × UsageRecord) (l : List (String × UsageRecord))
    (h : l.Pairwise (fun a b => leaderKey b ≤ leaderKey a)) :
    (insertDesc x l).Pairwise (fun a b => leaderKey b ≤ leaderKey a) := by
  induction l with
  | nil => exact List.pairwise_singleton _ _
  | cons y ys ih =>
    rw [List.pairwise_cons] at h
    unfold insertDesc
    by_cases hk : leaderKey x < leaderKey y
    · rw [if_pos hk, List.pairwise_cons]
      refine ⟨?_, ih h.2⟩
      intro z hz
      rcases List.mem_cons.mp ((perm_insertDesc x ys).mem_iff.mp hz) with rfl | hz2
      · exact le_of_lt hk
      · exact h.1 z hz2
    · rw [if_neg hk, List.pairwise_cons]
      refine ⟨?_, List.pairwise_cons.mpr h⟩
      intro z hz
      rcases List.mem_cons.mp hz with rfl | hz2
      · exact not_lt.mp hk
      · exact le_trans (h.1 z hz2) (not_lt.mp hk)

theorem sortDesc_sorted (l : List (String × UsageRecord)) :
    (sortDesc l).Pairwise (fun a b => leaderKey b ≤ leaderKey a) := by
  induction l with
  | nil => exact List.Pairwise.nil
  | cons x xs ih => exact pairwise_insertDesc x (sortDesc xs) ih

theorem filter_insertDesc (x : String × UsageRecord) (l : List (String × UsageRecord))
    (d : Rat) :
    (insertDesc x l).filter (fun e => decide (leaderKey e = d))
      = (x :: l).filter (fun e => decide (leaderKey e = d)) := by
  induction l with
  | nil => rfl
  | cons y ys ih =>
    unfold insertDesc
    by_cases hk : leaderKey x < leaderKey y
    · rw [if_pos hk]
      by_cases hx : leaderKey x = d
      · have hy : ¬ leaderKey y = d := by
          intro hc
          rw [hx, hc] at hk
          exact lt_irrefl d hk
        simp [List.filter_cons, hx, hy, ih]
      · simp [List.filter_cons, hx, ih]
    · rw [if_neg hk]

theorem sortDesc_stable (l : List (String × UsageRecord)) (d : Rat) :
    (sortDesc l).filter (fun e => decide (leaderKey e = d))
      = l.filter (fun e => decide (leaderKey e = d)) := by
  induction l with
  | nil => rfl
  | cons x xs ih =>
    show (insertDesc x (sortDesc xs)).filter _ = _
    rw [filter_insertDesc]
    simp [List.filter_cons, ih]

theorem sortDesc_take_drop (l : List (String × UsageRecord)) (limit : Nat) :
    ∀ a ∈ (sortDesc l).take limit, ∀ b ∈ (sortDesc l).drop limit,
      leaderKey b ≤ leaderKey a := by
  have h := sortDesc_sorted l
  rw [← List.take_append_drop limit (sortDesc l)] at h
  exact (List.pairwise_append.mp h).2.2

/-- C8: `get_leaderboard` returns the first `limit` entries of the stable
descending sort of the store: that sort is a permutation of the store,
non-increasing in `total_duration`, and keeps equal-duration entries in store
(insertion) order; every omitted entry has duration at most that of every
returned entry; the returned length is `limit` capped by the store size; on
the spec's example with durations [50, 200, 10, 75], `leaderboard(2)` is the
200-entry followed by the 75-entry. -/
theorem leaderboard_top_by_duration (stats : Stats) (limit : Nat) :
    get_leaderboard stats limit = (sortDesc stats).take limit
    ∧ (sortDesc stats).Perm stats
    ∧ (sortDesc stats).Pairwise (fun a b => leaderKey b ≤ leaderKey a)
    ∧ (∀ d : Rat, (sortDesc stats).filter (fun e => decide (leaderKey e = d))
        = stats.filter (fun e => decide (leaderKey e = d)))
    ∧ (∀ a ∈ get_leaderboard stats limit, ∀ b ∈ (sortDesc stats).drop limit,
        leaderKey b ≤ leaderKey a)
    ∧ (get_leaderboard stats limit).length = min limit stats.length
    ∧ get_leaderboard
        [("a", ⟨50, 0, none⟩), ("b", ⟨200, 0, none⟩),
         ("c", ⟨10, 0, none⟩), ("d", ⟨75, 0, none⟩)] 2
      = [("b", ⟨200, 0, none⟩), ("d", ⟨75, 0, none⟩)] := by
  refine ⟨rfl, sortDesc_perm stats, sortDesc_sorted stats,
    fun d => sortDesc_stable stats d, sortDesc_take_drop stats limit, ?_, by decide⟩
  show ((sortDesc stats).take limit).length = min limit stats.length
  rw [List.length_take, (sortDesc_perm stats).length_eq]

/-- C8 witness: the leaderboard theorem instantiated at the four-record
example store with limit 2. -/
theorem leaderboard_top_by_duration_witness :
    (sortDesc [("a", ⟨50, 0, none⟩), ("b", ⟨200, 0, none⟩),
               ("c", ⟨10, 0, none⟩), ("d", ⟨75, 0, none⟩)]).Perm
      [("a", ⟨50, 0, none⟩), ("b", ⟨200, 0, none⟩),
       ("c", ⟨10, 0, none⟩), ("d", ⟨75, 0, none⟩)]
    ∧ (get_leaderboard
        [("a", ⟨50, 0, none⟩), ("b", ⟨200, 0, none⟩),
         ("c", ⟨10, 0, none⟩), ("d", ⟨75, 0, none⟩)] 2).length
      = min 2 4 :=
  ⟨(leaderboard_top_by_duration _ 2).2.1,
   (leaderboard_top_by_duration _ 2).2.2.2.2.2.1⟩

theorem filter_not_mem_nil (l : List String) :
    l.filter (fun ip => !decide (ip ∈ ([] : List String))) = l := by
  induction l with
  | nil => rfl
  | cons a r ih => simp [List.filter_cons, ih]

theorem closeStep_fold_sessions (t n : Rat) (left : List String)
    (init : List (String × Rat) × Stats × List (String × Rat)) :
    (left.foldl (closeStep t n) init).1
      = init.1.filter (fun e => !decide (e.1 ∈ left)) := by
  induction left generalizing init with
  | nil => simp
  | cons a rest ih =>
    simp only [List.foldl_cons]
    rw [ih]
    show (init.1.filter (fun e => !decide (e.1 = a))).filter
        (fun e => !decide (e.1 ∈ rest))
      = init.1.filter (fun e => !decide (e.1 ∈ a :: rest))
    rw [List.filter_filter]
    apply List.filter_congr
    intro e hme
    by_cases h1 : e.1 = a
    · simp [h1]
    · by_cases h2 : e.1 ∈ rest <;> simp [h1, h2]

theorem bnot_decide_eq_true {p : Prop} [Decidable p] (h : ¬ p) : (!decide p) = true := by
  simp [h]

theorem of_bnot_decide_eq_true {p : Prop} [Decidable p] (h : (!decide p) = true) : ¬ p := by
  simpa using h

theorem pollStep_sessions_eq (t n : Rat) (clients : List String)
    (sessions : List (String × Rat)) (stats : Stats) :
    (pollStep t n clients sessions stats).sessions
      = List.filter
          (fun e => !decide (e.1 ∈ List.filter
            (fun ip => !decide (ip ∈ currentClientIps clients)) (sessions.map Prod.fst)))
          (sessions ++ List.map (fun ip => (ip, t))
            (List.filter (fun ip => !decide (ip ∈ sessions.map Prod.fst))
              (currentClientIps clients))) :=
  closeStep_fold_sessions t n
    (List.filter (fun ip => !decide (ip ∈ currentClientIps clients)) (sessions.map Prod.fst))
    (sessions ++ List.map (fun ip => (ip, t))
      (List.filter (fun ip => !decide (ip ∈ sessions.map Prod.fst))
        (currentClientIps clients)), stats, [])

theorem pollStep_keys_iff (t n : Rat) (clients : List String)
    (sessions : List (String × Rat)) (stats : Stats) (k : String) :
    k ∈ (pollStep t n clients sessions stats).sessions.map Prod.fst
      ↔ k ∈ currentClientIps clients := by
  rw [pollStep_sessions_eq]
  constructor
  · intro hk
    obtain ⟨e, hme, rfl⟩ := List.mem_map.mp hk
    obtain ⟨hmem, hpred⟩ := List.mem_filter.mp hme
    have hnotleft := of_bnot_decide_eq_true hpred
    rcases List.mem_append.mp hmem with hs | hnew
    · by_contra hcur
      exact hnotleft (List.mem_filter.mpr
        ⟨List.mem_map_of_mem _ hs, bnot_decide_eq_true hcur⟩)
    · obtain ⟨ip, hip, rfl⟩ := List.mem_map.mp hnew
      exact (List.mem_filter.mp hip).1
  · intro hk
    by_cases htr : k ∈ sessions.map Prod.fst
    · obtain ⟨e, hme, rfl⟩ := List.mem_map.mp htr
      refine List.mem_map.mpr ⟨e, List.mem_filter.mpr
        ⟨List.mem_append_left _ hme, bnot_decide_eq_true ?_⟩, rfl⟩
      intro hleft
      exact of_bnot_decide_eq_true (List.mem_filter.mp hleft).2 hk
    · refine List.mem_map.mpr ⟨(k, t), List.mem_filter.mpr
        ⟨List.mem_append_right _ (List.mem_map_of_mem _
          (List.mem_filter.mpr ⟨hk, bnot_decide_eq_true htr⟩)), bnot_decide_eq_true ?_⟩, rfl⟩
      intro hleft
      exact htr (List.mem_filter.mp hleft).1

/-- C7: per-poll session reconciliation is idempotent — re-running the
reconciliation with the same raw client list on the state a first run
produced opens no session, closes no session, performs no stats update, and
leaves sessions and stats unchanged. -/
theorem poll_reconciliation_idempotent (t1 n1 t2 n2 : Rat) (clients : List String)
    (sessions : List (String × Rat)) (stats : Stats) :
    pollStep t2 n2 clients (pollStep t1 n1 clients sessions stats).sessions
        (pollStep t1 n1 clients sessions stats).stats
      = ⟨(pollStep t1 n1 clients sessions stats).sessions,
         (pollStep t1 n1 clients sessions stats).stats, [], []⟩ := by
  have hkeys := pollStep_keys_iff t1 n1 clients sessions stats
  set r1 := pollStep t1 n1 clients sessions stats with hr1
  have hnew : (currentClientIps clients).filter
      (fun ip => !decide (ip ∈ r1.sessions.map Prod.fst)) = [] := by
    rw [List.filter_eq_nil_iff]
    intro ip hip
    simp [(hkeys ip).mpr hip]
  have hleft : (r1.sessions.map Prod.fst).filter
      (fun ip => !decide (ip ∈ currentClientIps clients)) = [] := by
    rw [List.filter_eq_nil_iff]
    intro ip hip
    simp [(hkeys ip).mp hip]
  simp only [pollStep, hnew, hleft, List.map_nil, List.append_nil, List.foldl_nil]

/-- C7 witness: the idempotence theorem instantiated at one client token and
an initially empty tracker and store. -/
theorem poll_reconciliation_idempotent_witness :
    pollStep 3 3 ["1.2.3.4:500"] (pollStep 2 2 ["1.2.3.4:500"] [] []).sessions
        (pollStep 2 2 ["1.2.3.4:500"] [] []).stats
      = ⟨(pollStep 2 2 ["1.2.3.4:500"] [] []).sessions,
         (pollStep 2 2 ["1.2.3.4:500"] [] []).stats, [], []⟩ :=
  poll_reconciliation_idempotent 2 2 3 3 ["1.2.3.4:500"] [] []

/-- C9 amended: sessions are keyed on `clientKey`, the prefix of the raw
client token before its FIRST colon (the whole token when it has no colon) —
never on the full `ip:port` token when a colon is present. Starting from an
empty tracker, the tracked keys after a poll are exactly the `clientKey`
images of the raw client tokens; a token containing a colon is never its own
key; and concretely a single-colon token keys on its ip, a colon-free token
on itself, and the multi-colon token "::1:9000" on the empty prefix before
its first colon. -/
theorem session_keys_are_first_colon_prefixes (t n : Rat) (clients : List String)
    (stats : Stats) :
    (pollStep t n clients [] stats).sessions.map Prod.fst = currentClientIps clients
    ∧ (∀ c : String, ':' ∈ c.data → clientKey c ≠ c)
    ∧ clientKey "1.2.3.4:5000" = "1.2.3.4"
    ∧ clientKey "9.9.9.9" = "9.9.9.9"
    ∧ clientKey "::1:9000" = "" := by
  refine ⟨?_, ?_, by decide, by decide, by decide⟩
  · show ((List.filter (fun ip => !decide (ip ∈ (([] : List (String × Rat)).map Prod.fst)))
        (currentClientIps clients)).map (fun ip => (ip, t))).map Prod.fst
      = currentClientIps clients
    rw [List.map_map]
    have h1 : (List.filter (fun ip => !decide (ip ∈ (([] : List (String × Rat)).map Prod.fst)))
        (currentClientIps clients)) = currentClientIps clients := by
      rw [List.filter_eq_self]
      intro a hma
      simp
    rw [h1]
    exact List.map_id _
  · intro c hc
    unfold clientKey
    rw [if_pos hc]
    intro hcontra
    have hdata : (firstField c).data = c.data := congrArg String.data hcontra
    have hmem : ':' ∈ c.data.takeWhile (fun x => !decide (x = ':')) := by
      have : (firstField c).data = c.data.takeWhile (fun x => !decide (x = ':')) := rfl
      rw [this] at hdata
      rw [hdata]
      exact hc
    have h2 := List.mem_takeWhile_imp hmem
    simp at h2

/-- C9 witness: the amended session-key theorem instantiated at a concrete
client list, tracker and store. -/
theorem session_keys_are_first_colon_prefixes_witness :
    (pollStep 0 0 ["1.2.3.4:5000"] [] []).sessions.map Prod.fst
      = currentClientIps ["1.2.3.4:5000"]
    ∧ clientKey "::1:9000" = "" :=
  ⟨(session_keys_are_first_colon_prefixes 0 0 ["1.2.3.4:5000"] []).1,
   (session_keys_are_first_colon_prefixes 0 0 ["1.2.3.4:5000"] []).2.2.2.2⟩

/-- C9 counterexample: the poll loop keys sessions with
`client.split(':')[0]`, the prefix before the FIRST colon. On a token with
multiple colons this differs from "everything before the final colon": for
"2001:db8::1:9000" the code keys the session on "2001", not "2001:db8::1". -/
theorem session_key_uses_first_colon :
    clientKey "2001:db8::1:9000" = "2001"
    ∧ specSessionKey "2001:db8::1:9000" = "2001:db8::1"
    ∧ ("2001" : String) ≠ "2001:db8::1" := by decide

/-- C10: a stats file that exists but cannot be read or is not valid JSON
(the `except Exception` branch of `load_stats`) is treated identically to an
absent file — the manager starts from the empty store instead of raising —
and the next `save_stats` rewrites the whole file from the in-memory store,
so the corrupt prior contents are discarded. -/
theorem corrupt_stats_file_treated_as_empty (ip : String) (dur now : Rat) :
    load_stats StatsFile.unreadable = load_stats StatsFile.absent
    ∧ load_stats StatsFile.unreadable = []
    ∧ save_stats (update_client (load_stats StatsFile.unreadable) ip dur now)
        = StatsFile.present (update_client [] ip dur now) :=
  ⟨rfl, rfl, rfl⟩

/-- C10 witness: the corrupt-file theorem instantiated at a concrete first
update after startup. -/
theorem corrupt_stats_file_treated_as_empty_witness :
    load_stats StatsFile.unreadable = load_stats StatsFile.absent
    ∧ load_stats StatsFile.unreadable = []
    ∧ save_stats (update_client (load_stats StatsFile.unreadable) "9.9.9.9" 3 4)
        = StatsFile.present (update_client [] "9.9.9.9" 3 4) :=
  corrupt_stats_file_treated_as_empty "9.9.9.9" 3 4

end PortMonitor
